import Mathlib

/-!
Shallow embedding of the dnd-ai-simulator core (module router, game state
store, combat / movement / spells / inventory modules) with theorems
checking the natural-language specification against the code.

Randomness (`random.randint`, `_roll_dice`) is modelled by passing the die
outcomes explicitly: single rolls as `Int` parameters, dice sequences as a
`List Int` stream consumed front-first.  Python exceptions are modelled with
`Except Nat`, the `Nat` payload identifying the raised exception.
-/

set_option maxRecDepth 4000

namespace DnD

/-! ### Module router (src/backend/core/module_manager.py)

A registered module is a pair of callables `can_handle` / `process_action`,
either of which may raise.  `mid` tags the module so that theorems can speak
about *which* module's `process_action` was invoked. -/

structure GameModule (α : Type) where
  mid : Nat
  can_handle : α → Except Nat Bool
  process_action : α → Except Nat Bool

namespace ModuleManager

/-- The `for module in self.modules` loop of `ModuleManager.process_action`,
additionally recording the `mid`s of the modules whose `process_action` was
invoked.  `can_handle` is evaluated outside the `try`, so an exception there
escapes; an exception (or a `False` return) from `process_action` lets the
loop move on to the next module. -/
def route_loop {α : Type} : List (GameModule α) → α → Except Nat Bool × List Nat
  | [], _ => (Except.ok false, [])
  | m :: ms, a =>
    match m.can_handle a with
    | Except.error e => (Except.error e, [])
    | Except.ok false => route_loop ms a
    | Except.ok true =>
      match m.process_action a with
      | Except.ok true => (Except.ok true, [m.mid])
      | Except.ok false =>
        let r := route_loop ms a
        (r.1, m.mid :: r.2)
      | Except.error _ =>
        let r := route_loop ms a
        (r.1, m.mid :: r.2)

/-- Embedding of `ModuleManager.process_action`: route an action through the registered
modules, returning `ok true` on the first module whose `process_action`
returns true, `ok false` when no module succeeds, and `error e` when some
`can_handle` raises. -/
def process_action {α : Type} (modules : List (GameModule α)) (a : α) : Except Nat Bool :=
  (route_loop modules a).1

/-- The `mid`s of the modules whose `process_action` was invoked while
routing `a`, in invocation order. -/
def invoked_modules {α : Type} (modules : List (GameModule α)) (a : α) : List Nat :=
  (route_loop modules a).2

end ModuleManager

/-! ### Entity model and state store (src/backend/GameStateManager.py) -/

/-- An inventory item; `healing` is the parsed `"NdS+K"` dice expression of
`properties["healing"]` (count, die size, additive modifier), when present. -/
structure Item where
  name : String
  itype : String
  healing : Option (Nat × Nat × Nat)
  quantity : Int

/-- A character record.  The dynamically attached Python attributes
(`spells_known`, `spell_slots`, `temp_ac_bonus`, `inventory`,
`dashed_this_turn`, race speed) are embedded as ordinary fields; the slot
dictionaries are total maps from spell level. -/
structure Character where
  id : String
  name : String
  ctype : String
  position : Int × Int
  hp : Int
  max_hp : Int
  ac : Int
  attack_bonus : Int
  initiative : Int
  spells_known : List String
  spell_slots : Nat → Nat
  spell_slots_used : Nat → Nat
  temp_ac_bonus : Int
  inventory : List Item
  race_speed : Option Int
  dashed_this_turn : Bool

/-- The aggregate game state.  `width`/`height` are the effective values of
`map_data.get("width", 10)` / `.get("height", 10)`; `terrain` mirrors the
`map_data["terrain"]` dictionary. -/
structure GameState where
  characters : List Character
  width : Int
  height : Int
  terrain : List (String × List (Int × Int))
  combat_active : Bool
  turn_order : List String
  current_turn_index : Nat
  game_log : List String

def posToString (p : Int × Int) : String :=
  "(" ++ toString p.1 ++ ", " ++ toString p.2 ++ ")"

/-- Embedding of `GameStateManager.get_character_by_id`. -/
def get_character_by_id (s : GameState) (cid : String) : Option Character :=
  s.characters.find? (fun c => c.id == cid)

/-- Embedding of `GameStateManager.add_to_log`. -/
def add_to_log (s : GameState) (message : String) : GameState :=
  { s with game_log := s.game_log ++ [message] }

/-- Update the character stored under `cid` (the embedding of mutating the
character object held in the `characters` dictionary). -/
def update_character (s : GameState) (cid : String) (f : Character → Character) : GameState :=
  { s with characters := s.characters.map (fun c => if c.id = cid then f c else c) }

def move_msg (c : Character) (newPos : Int × Int) : String :=
  c.name ++ " moves from " ++ posToString c.position ++ " to " ++ posToString newPos

/-- Embedding of `GameStateManager.move_character`. -/
def move_character (s : GameState) (cid : String) (new_position : Int × Int) : GameState × Bool :=
  match get_character_by_id s cid with
  | none => (s, false)
  | some character =>
    if 0 ≤ new_position.1 ∧ new_position.1 < s.width ∧
        0 ≤ new_position.2 ∧ new_position.2 < s.height then
      if s.characters.any (fun other => decide (other.id ≠ cid ∧ other.position = new_position)) then
        (s, false)
      else
        (add_to_log (update_character s cid (fun c => { c with position := new_position }))
          (move_msg character new_position), true)
    else
      (s, false)

def damage_msg (c : Character) (damage : Int) : String :=
  c.name ++ " takes " ++ toString damage ++ " damage (HP: " ++
    toString (max 0 (c.hp - damage)) ++ "/" ++ toString c.max_hp ++ ")"

def defeat_msg (name : String) : String :=
  name ++ " is defeated!"

/-- Embedding of `GameStateManager.apply_damage` (also the body of
`CombatModule._apply_damage`, which is identical). -/
def apply_damage (s : GameState) (cid : String) (damage : Int) : GameState × Bool :=
  match get_character_by_id s cid with
  | none => (s, false)
  | some character =>
    let newHp : Int := max 0 (character.hp - damage)
    let s1 := add_to_log (update_character s cid (fun c => { c with hp := newHp }))
      (damage_msg character damage)
    if newHp ≤ 0 then
      (add_to_log s1 (defeat_msg character.name), true)
    else
      (s1, true)

/-- Manhattan distance between two grid positions, as computed inline by the
attack and range helpers. -/
def manhattan (p q : Int × Int) : Int :=
  |p.1 - q.1| + |p.2 - q.2|

def too_far_msg (attacker target : Character) : String :=
  attacker.name ++ " is too far from " ++ target.name ++ " to attack!"

def attack_msg (attacker target : Character) (attack_roll attack_modifier : Int) : String :=
  attacker.name ++ " attacks " ++ target.name ++ ": rolls " ++ toString attack_roll ++
    " + " ++ toString attack_modifier ++ " = " ++ toString (attack_roll + attack_modifier) ++
    " vs AC " ++ toString target.ac

def miss_msg (attacker target : Character) : String :=
  attacker.name ++ "'s attack misses " ++ target.name ++ "!"

/-! ### Attack resolution

`GameEngine.execute_attack` uses a fixed attack modifier of 3;
`CombatModule._execute_attack` uses `getattr(attacker, 'attack_bonus', 3)`.
The to-hit d20 and the 1d8 damage die are passed in explicitly. -/

/-- Common body of the two attack functions, over the attack modifier used. -/
def attack_body (s : GameState) (attacker_id target_id : String)
    (attack_roll damage_roll : Int) (modifier_of : Character → Int) : GameState × Bool :=
  match get_character_by_id s attacker_id, get_character_by_id s target_id with
  | some attacker, some target =>
    if manhattan attacker.position target.position > 1 then
      (add_to_log s (too_far_msg attacker target), false)
    else
      let attack_modifier := modifier_of attacker
      let total_attack := attack_roll + attack_modifier
      let s1 := add_to_log s (attack_msg attacker target attack_roll attack_modifier)
      if total_attack ≥ target.ac then
        ((apply_damage s1 target_id (damage_roll + 2)).1, true)
      else
        (add_to_log s1 (miss_msg attacker target), true)
  | _, _ => (s, false)

/-- Embedding of `GameEngine.execute_attack` (fixed `attack_modifier = 3`). -/
def execute_attack (s : GameState) (attacker_id target_id : String)
    (attack_roll damage_roll : Int) : GameState × Bool :=
  attack_body s attacker_id target_id attack_roll damage_roll (fun _ => 3)

/-- Embedding of `CombatModule._execute_attack` (`attack_modifier = attacker.attack_bonus`). -/
def combat_execute_attack (s : GameState) (attacker_id target_id : String)
    (attack_roll damage_roll : Int) : GameState × Bool :=
  attack_body s attacker_id target_id attack_roll damage_roll (fun a => a.attack_bonus)

/-! ### Turn/combat controller (src/backend/modules/combat.py) -/

/-- The sort key `lambda char_id: self.gsm.characters[char_id].initiative`. -/
def initiative_of (chars : List Character) (cid : String) : Int :=
  match chars.find? (fun c => c.id == cid) with
  | some c => c.initiative
  | none => 0

def name_of (chars : List Character) (cid : String) : String :=
  match chars.find? (fun c => c.id == cid) with
  | some c => c.name
  | none => ""

/-- Embedding of `CombatModule._start_combat` (same code as `GameEngine.start_combat`),
with the per-character d20 initiative rolls supplied by `rolls`.  Python's
`sorted(keys, key=initiative, reverse=True)` is a stable descending sort,
embedded as `mergeSort` with `le a b := initiative b ≤ initiative a`. -/
def start_combat (s : GameState) (rolls : String → Int) : GameState × Bool :=
  let s0 := add_to_log { s with combat_active := true } "Combat has started! Roll for initiative!"
  let chars := s0.characters.map (fun c => { c with initiative := rolls c.id })
  let s1 := { s0 with
                characters := chars,
                game_log := s0.game_log ++ chars.map
                  (fun (c : Character) =>
                    c.name ++ " rolls " ++ toString c.initiative ++ " for initiative") }
  let order := (chars.map (fun c => c.id)).mergeSort
    (fun a b => decide (initiative_of chars b ≤ initiative_of chars a))
  let s2 := { s1 with turn_order := order, current_turn_index := 0 }
  (add_to_log s2
    ("Turn order: " ++ String.intercalate " -> " (order.map (fun cid => name_of chars cid))), true)

def new_round_msg : String := "--- New Round ---"

/-- Embedding of `CombatModule.advance_turn` (same code as `GameEngine.advance_turn`). -/
def advance_turn (s : GameState) : GameState :=
  let s1 := { s with current_turn_index := s.current_turn_index + 1 }
  if s1.current_turn_index ≥ s1.turn_order.length then
    add_to_log { s1 with current_turn_index := 0 } new_round_msg
  else
    s1

/-! ### Action records (src/backend: `action_data` dictionaries)

Each field is `Option`al; `none` models a key missing from the dictionary.
`field.getD default` embeds `action_data.get(key, default)`. -/

structure ActionData where
  type : Option String
  character_id : Option String
  position : Option (Int × Int)
  attacker_id : Option String
  target_id : Option String
  spell_name : Option String
  item_name : Option String

/-- Embedding of `CombatModule._handle_attack`: defaults `attacker_id` to `'player'`;
`if not target_id` is true both for a missing key and for an empty string. -/
def combat_handle_attack (s : GameState) (a : ActionData)
    (attack_roll damage_roll : Int) : GameState × Bool :=
  let attacker_id := a.attacker_id.getD "player"
  match a.target_id with
  | none => (s, false)
  | some target_id =>
    if target_id = "" then
      (s, false)
    else
      combat_execute_attack s attacker_id target_id attack_roll damage_roll

/-- Embedding of `CombatModule.process_action`. -/
def combat_process_action (s : GameState) (a : ActionData)
    (attack_roll damage_roll : Int) (rolls : String → Int) : GameState × Bool :=
  match a.type with
  | some "attack" => combat_handle_attack s a attack_roll damage_roll
  | some "start_combat" => start_combat s rolls
  | _ => (s, false)

/-! ### Movement module (src/backend/modules/movement.py)

`self.movement_used` (a dictionary read with `.get(id, 0)`) is threaded
through as a total map `mov : String → Int`. -/

/-- Embedding of `MovementModule._get_character_speed`. -/
def get_character_speed (c : Character) : Int :=
  c.race_speed.getD 30

/-- Embedding of `MovementModule._is_position_blocked`. -/
def is_position_blocked (s : GameState) (position : Int × Int) : Bool :=
  s.terrain.any (fun tp => tp.2.contains position && tp.1 == "trees")

/-- Embedding of `MovementModule._is_valid_move` (returns the state because failures
append log entries). -/
def is_valid_move (s : GameState) (character : Character) (new_position : Int × Int) :
    GameState × Bool :=
  if ¬(0 ≤ new_position.1 ∧ new_position.1 < s.width ∧
      0 ≤ new_position.2 ∧ new_position.2 < s.height) then
    (add_to_log s (character.name ++ " cannot move outside the map bounds!"), false)
  else if s.characters.any (fun other => decide (other.id ≠ character.id ∧ other.position = new_position)) then
    (add_to_log s (character.name ++ " cannot move to occupied position!"), false)
  else if is_position_blocked s new_position then
    (add_to_log s (character.name ++ " cannot move through that terrain!"), false)
  else
    (s, true)

/-- Embedding of `MovementModule._handle_movement`. -/
def handle_movement (s : GameState) (mov : String → Int) (character_id : String)
    (new_position : Int × Int) : GameState × (String → Int) × Bool :=
  match get_character_by_id s character_id with
  | none => (s, mov, false)
  | some character =>
    let current_pos := character.position
    let distance_feet := manhattan new_position current_pos * 5
    let speed := get_character_speed character
    let used_movement := mov character_id
    let remaining_movement := speed - used_movement
    if distance_feet > remaining_movement then
      (add_to_log s (character.name ++ " doesn't have enough movement! Needs " ++
        toString distance_feet ++ " feet, has " ++ toString remaining_movement ++
        " feet remaining."), mov, false)
    else
      match is_valid_move s character new_position with
      | (s1, false) => (s1, mov, false)
      | (s1, true) =>
        let s2 := update_character s1 character_id (fun c => { c with position := new_position })
        let mov1 := Function.update mov character_id (used_movement + distance_feet)
        let remaining := speed - (used_movement + distance_feet)
        (add_to_log s2 (character.name ++ " moves from " ++ posToString current_pos ++
          " to " ++ posToString new_position ++ " (" ++ toString distance_feet ++
          " feet, " ++ toString remaining ++ " feet remaining)"), mov1, true)

/-- Embedding of `MovementModule._handle_dash`. -/
def handle_dash (s : GameState) (mov : String → Int) (character_id : String) :
    GameState × (String → Int) × Bool :=
  match get_character_by_id s character_id with
  | none => (s, mov, false)
  | some character =>
    if character.dashed_this_turn then
      (add_to_log s (character.name ++ " has already dashed this turn!"), mov, false)
    else
      let speed := get_character_speed character
      let s1 := update_character s character_id (fun c => { c with dashed_this_turn := true })
      let mov1 := Function.update mov character_id (max 0 (mov character_id - speed))
      (add_to_log s1 (character.name ++ " dashes! Movement doubled for this turn."), mov1, true)

/-- Embedding of `MovementModule.process_action`: defaults `character_id` to `'player'`
and `position` to `[0, 0]`. -/
def movement_process_action (s : GameState) (mov : String → Int) (a : ActionData) :
    GameState × (String → Int) × Bool :=
  let character_id := a.character_id.getD "player"
  match a.type with
  | some "move" => handle_movement s mov character_id (a.position.getD (0, 0))
  | some "dash" => handle_dash s mov character_id
  | _ => (s, mov, false)

/-! ### Spells module (src/backend/modules/spells.py)

Dice rolls are drawn front-first from an explicit `stream` of die outcomes;
`_roll_dice("NdS+K")` becomes `(stream.take N).sum + K`. -/

/-- The level of each spell in `_create_spell_database`. -/
def spell_level : String → Option Nat
  | "cure_wounds" => some 1
  | "magic_missile" => some 1
  | "shield" => some 1
  | "fireball" => some 3
  | _ => none

/-- The `spell.name` of each spell in the database. -/
def spell_display_name : String → String
  | "cure_wounds" => "Cure Wounds"
  | "magic_missile" => "Magic Missile"
  | "shield" => "Shield"
  | "fireball" => "Fireball"
  | sn => sn

/-- Embedding of `SpellsModule._execute_spell_effect` (the spell key is what
`spell.name.lower().replace(" ", "_")` produces).  `target` is the already
resolved target id; `none` models a `None` target object. -/
def execute_spell_effect (s : GameState) (spell_key : String) (caster_id : String)
    (target : Option String) (stream : List Int) : GameState × Bool :=
  if spell_key = "cure_wounds" then
    match target with
    | none => (s, false)
    | some tid =>
      match get_character_by_id s tid with
      | none => (s, false)
      | some t =>
        let healing := (stream.take 1).sum + 3
        let newHp := min t.max_hp (t.hp + healing)
        let s1 := update_character s tid (fun c => { c with hp := newHp })
        (add_to_log s1 (t.name ++ " heals " ++ toString (newHp - t.hp) ++ " HP"), true)
  else if spell_key = "magic_missile" then
    match target with
    | none => (s, false)
    | some tid =>
      match get_character_by_id s tid with
      | none => (s, false)
      | some t =>
        let total_damage := (stream.take 3).sum + 3
        let newHp := max 0 (t.hp - total_damage)
        let s1 := update_character s tid (fun c => { c with hp := newHp })
        let s2 := add_to_log s1 ("Magic missiles hit " ++ t.name ++ " for " ++
          toString total_damage ++ " damage")
        if newHp ≤ 0 then
          (add_to_log s2 (defeat_msg t.name), true)
        else
          (s2, true)
  else if spell_key = "shield" then
    let s1 := update_character s caster_id
      (fun c => { c with temp_ac_bonus := c.temp_ac_bonus + 5, ac := c.ac + 5 })
    match get_character_by_id s caster_id with
    | none => (s1, true)
    | some caster =>
      (add_to_log s1 (caster.name ++ " gains +5 AC from Shield spell"), true)
  else if spell_key = "fireball" then
    let damage := (stream.take 8).sum
    let hit : Character → Bool := fun c => c.ctype == "monster" && c.hp > 0
    let s1 := { s with
                  characters := s.characters.map
                    (fun c => if hit c then { c with hp := max 0 (c.hp - damage) } else c) }
    let defeats := (s.characters.filter (fun c => hit c && decide (c.hp - damage ≤ 0))).map
      (fun c => c.name ++ " is defeated by the fireball!")
    let targets_hit := (s.characters.filter hit).map (fun c => c.name)
    let s2 := { s1 with game_log := s1.game_log ++ defeats }
    if targets_hit.isEmpty then
      (s2, true)
    else
      (add_to_log s2 ("Fireball deals " ++ toString damage ++ " damage to: " ++
        String.intercalate ", " targets_hit), true)
  else
    (s, false)

/-- Embedding of `SpellsModule.process_action` (caster lookup) followed by
`SpellsModule._cast_spell`: knowledge check, slot check, unconditional slot
consumption, target resolution, effect dispatch. -/
def cast_spell (s : GameState) (caster_id : String) (spell_name : String)
    (target_id : Option String) (stream : List Int) : GameState × Bool :=
  match get_character_by_id s caster_id with
  | none => (s, false)
  | some caster =>
    if spell_name ∈ caster.spells_known then
      match spell_level spell_name with
      | none => (s, false)
      | some lvl =>
        if caster.spell_slots_used lvl ≥ caster.spell_slots lvl then
          (add_to_log s (caster.name ++ " has no " ++ toString lvl ++
            "-level spell slots left"), false)
        else
          let s1 := update_character s caster_id (fun c =>
            { c with spell_slots_used :=
                Function.update c.spell_slots_used lvl (c.spell_slots_used lvl + 1) })
          let target : Option String :=
            match target_id with
            | some tid => if (get_character_by_id s1 tid).isSome then some tid else none
            | none => some caster_id
          match execute_spell_effect s1 spell_name caster_id target stream with
          | (s2, true) =>
            (add_to_log s2 (caster.name ++ " casts " ++ spell_display_name spell_name), true)
          | (s2, false) => (s2, false)
    else
      (add_to_log s (caster.name ++ " doesn't know " ++ spell_name), false)

/-! ### Inventory module (src/backend/modules/inventory.py), `use_item` path -/

/-- Decrement the quantity of the first case-insensitive name match and drop
it when the quantity reaches zero (`item.quantity -= 1` followed by
`inventory.remove(item)`). -/
def consume_item : List Item → String → List Item
  | [], _ => []
  | it :: rest, item_name =>
    if it.name.toLower == item_name.toLower then
      if it.quantity - 1 ≤ 0 then rest
      else { it with quantity := it.quantity - 1 } :: rest
    else
      it :: consume_item rest item_name

/-- Embedding of `InventoryModule.process_action` (character lookup) followed by
`InventoryModule._use_item`. -/
def use_item (s : GameState) (character_id : String) (item_name : String)
    (stream : List Int) : GameState × Bool :=
  match get_character_by_id s character_id with
  | none => (s, false)
  | some character =>
    match character.inventory.find? (fun it => it.name.toLower == item_name.toLower) with
    | none => (s, false)
    | some item =>
      if item.itype = "consumable" then
        match item.healing with
        | some (n, _, k) =>
          let healing := (stream.take n).sum + (k : Int)
          let newHp := min character.max_hp (character.hp + healing)
          let s1 := update_character s character_id (fun c =>
            { c with hp := newHp, inventory := consume_item c.inventory item_name })
          (add_to_log s1 (character.name ++ " uses " ++ item_name ++ " and heals " ++
            toString (newHp - character.hp) ++ " HP"), true)
        | none =>
          (update_character s character_id (fun c =>
            { c with inventory := consume_item c.inventory item_name }), true)
      else
        (s, false)

/-! ### Properties named by the claims -/

/-- No character other than `cid` occupies `p`. -/
def occupancy_ok (s : GameState) (cid : String) (p : Int × Int) : Prop :=
  ∀ o ∈ s.characters, o.id ≠ cid → o.position ≠ p

/-- The position `p` lies within the map bounds. -/
def in_bounds (s : GameState) (p : Int × Int) : Prop :=
  0 ≤ p.1 ∧ p.1 < s.width ∧ 0 ≤ p.2 ∧ p.2 < s.height

/-- All characters hold pairwise distinct positions. -/
def positions_distinct (l : List Character) : Prop :=
  l.Pairwise (fun a b => a.position ≠ b.position)

/-- Character ids are pairwise distinct (dictionary keys are unique). -/
def ids_nodup (l : List Character) : Prop :=
  (l.map (fun c => c.id)).Nodup

/-- The character stored under `cid` sits at `p`. -/
def character_at (s : GameState) (cid : String) (p : Int × Int) : Prop :=
  ∀ o ∈ s.characters, o.id = cid → o.position = p

/-- The character stored under `cid` has exactly zero hit points. -/
def hp_zero_for (s : GameState) (cid : String) : Prop :=
  ∀ o ∈ s.characters, o.id = cid → o.hp = 0

/-- The hit-point invariant of a single character. -/
def hp_inv (c : Character) : Prop :=
  0 ≤ c.hp ∧ c.hp ≤ c.max_hp

/-- The hit-point invariant over the whole roster. -/
def all_hp_inv (s : GameState) : Prop :=
  ∀ c ∈ s.characters, hp_inv c

/-- Either id fails to resolve, or both resolve but the Manhattan distance
between the two characters exceeds one grid square. -/
def invalid_or_out_of_range (s : GameState) (attacker_id target_id : String) : Prop :=
  get_character_by_id s attacker_id = none ∨ get_character_by_id s target_id = none ∨
    ∃ attacker target, get_character_by_id s attacker_id = some attacker ∧
      get_character_by_id s target_id = some target ∧
      manhattan attacker.position target.position > 1

/-- The list `order` lists elements with equal `key` in the same relative order as
`l` does (stability of the sort on ties). -/
def stable_on_ties (order l : List String) (key : String → Int) : Prop :=
  ∀ v : Int, order.filter (fun cid => key cid == v) = l.filter (fun cid => key cid == v)

instance (s : GameState) (p : Int × Int) : Decidable (in_bounds s p) := by
  unfold in_bounds; infer_instance

instance (s : GameState) (cid : String) (p : Int × Int) : Decidable (occupancy_ok s cid p) := by
  unfold occupancy_ok; infer_instance

instance (l : List Character) : Decidable (positions_distinct l) := by
  unfold positions_distinct; infer_instance

instance (l : List Character) : Decidable (ids_nodup l) := by
  unfold ids_nodup; infer_instance

instance (s : GameState) (cid : String) (p : Int × Int) : Decidable (character_at s cid p) := by
  unfold character_at; infer_instance

instance (s : GameState) (cid : String) : Decidable (hp_zero_for s cid) := by
  unfold hp_zero_for; infer_instance

instance (c : Character) : Decidable (hp_inv c) := by
  unfold hp_inv; infer_instance

instance (s : GameState) : Decidable (all_hp_inv s) := by
  unfold all_hp_inv; infer_instance

/-! ### Concrete fixtures used by witnesses and counterexamples -/

/-- A character with the hardcoded default player stats of
`Character._initialize_defaults`. -/
def base_character (cid nm : String) (pos : Int × Int) (hp mhp : Int) : Character :=
  { id := cid, name := nm, ctype := "player", position := pos, hp := hp, max_hp := mhp,
    ac := 15, attack_bonus := 5, initiative := 0, spells_known := [],
    spell_slots := fun _ => 0, spell_slots_used := fun _ => 0, temp_ac_bonus := 0,
    inventory := [], race_speed := none, dashed_this_turn := false }

/-- A fresh game state over the given roster, on the default 10×10 map. -/
def mkState (chars : List Character) : GameState :=
  { characters := chars, width := 10, height := 10, terrain := [], combat_active := false,
    turn_order := [], current_turn_index := 0, game_log := [] }

/-- A module that claims every action and has `process` return `False`. -/
def rmFalse : GameModule Nat :=
  { mid := 1, can_handle := fun _ => Except.ok true, process_action := fun _ => Except.ok false }

/-- A module that claims every action and has `process` return `True`. -/
def rmTrue : GameModule Nat :=
  { mid := 2, can_handle := fun _ => Except.ok true, process_action := fun _ => Except.ok true }

/-- A module that claims every action and whose `process` raises. -/
def rmRaise : GameModule Nat :=
  { mid := 3, can_handle := fun _ => Except.ok true, process_action := fun _ => Except.error 7 }

/-- A module whose `can_handle` raises. -/
def rmBadClaim : GameModule Nat :=
  { mid := 4, can_handle := fun _ => Except.error 9, process_action := fun _ => Except.ok true }

def w4a : Character := base_character "a" "Alice" (0, 0) 20 20

def w4b : Character := base_character "b" "Bob" (2, 2) 20 20

def w4 : GameState := mkState [w4a, w4b]

def cx5 : GameState := mkState [base_character "a" "A" (0, 0) 1 10]

def w5ch : Character := base_character "a" "A" (0, 0) 7 10

def w5 : GameState := mkState [w5ch]

def w6potion : Item :=
  { name := "Healing Potion", itype := "consumable", healing := some (2, 4, 2), quantity := 2 }

def w6a : Character :=
  { base_character "a" "Alice" (0, 0) 5 20 with inventory := [w6potion] }

def w6b : Character :=
  { base_character "b" "Goblin" (1, 0) 10 10 with ctype := "monster" }

def w6 : GameState := mkState [w6a, w6b]

def cx6 : GameState := mkState [base_character "a" "Alice" (0, 0) 20 20]

def c8_caster : Character :=
  { base_character "caster" "Caster" (0, 0) 5 20 with
      spells_known := ["cure_wounds"],
      spell_slots := fun l => if l = 1 then 1 else 0 }

def s8 : GameState := mkState [c8_caster]

/-- The state after the first `cure_wounds` cast of the C8 scenario (one
level-1 slot, HP 5/20, healing d8 seeded to 6). -/
def s8a : GameState := (cast_spell s8 "caster" "cure_wounds" none [6]).1

def e3 : GameState := mkState []

def w3 : GameState :=
  mkState [base_character "a" "Alice" (0, 0) 20 20, base_character "b" "Bob" (2, 2) 20 20]

def w3rolls : String → Int := fun cid => if cid = "b" then 5 else 3

def c9_player : Character := base_character "player" "Hero" (0, 1) 20 20

def s9 : GameState := mkState [c9_player]

def mov0 : String → Int := fun _ => 0

/-- A `move` action with every field missing. -/
def a9_move : ActionData :=
  { type := some "move", character_id := none, position := none, attacker_id := none,
    target_id := none, spell_name := none, item_name := none }

/-- An `attack` action missing its `target_id`. -/
def a9_attack : ActionData :=
  { type := some "attack", character_id := none, position := none, attacker_id := none,
    target_id := none, spell_name := none, item_name := none }

/-! ## Theorems -/

/-- Claim C1 (counterexample): with two modules both claiming the action,
the first returning `False` from `process` and the second returning `True`,
the router does not stop: it reports overall success and the second module's
`process` is invoked — refuting "routing stops and the action is reported
failed". -/
theorem c1_counterexample :
    ModuleManager.process_action [rmFalse, rmTrue] 0 = Except.ok true ∧
    ModuleManager.invoked_modules [rmFalse, rmTrue] 0 = [1, 2] :=
  ⟨rfl, rfl⟩

/-- Claim C1 (amended): if the first module whose `can_handle` returns true
has its `process` return `False` without raising, the router does *not* stop:
it continues scanning the remaining modules exactly as it would after an
exception, and the action is reported failed only if no remaining module
succeeds. -/
theorem c1_false_continues {α : Type} (m : GameModule α) (ms : List (GameModule α)) (a : α)
    (h1 : m.can_handle a = Except.ok true) (h2 : m.process_action a = Except.ok false) :
    ModuleManager.process_action (m :: ms) a = ModuleManager.process_action ms a ∧
    ModuleManager.invoked_modules (m :: ms) a = m.mid :: ModuleManager.invoked_modules ms a := by
  constructor <;>
    simp [ModuleManager.process_action, ModuleManager.invoked_modules,
      ModuleManager.route_loop, h1, h2]

/-- Claim C1 (witness): the amended behaviour at a concrete module list. -/
theorem c1_witness :
    ModuleManager.process_action [rmFalse, rmTrue] 0 = ModuleManager.process_action [rmTrue] 0 ∧
    ModuleManager.invoked_modules [rmFalse, rmTrue] 0 =
      rmFalse.mid :: ModuleManager.invoked_modules [rmTrue] 0 :=
  c1_false_continues rmFalse [rmTrue] 0 rfl rfl

/-- Claim C2: if a module's `process` raises inside
`ModuleManager.process_action`, the router catches it and continues scanning
the remaining modules in registration order (routing the tail unchanged),
and a later module claiming the action still gets to process it with its
result returned; the exception never reaches the router's caller. -/
theorem c2_process_exception_isolated {α : Type} (m : GameModule α) (ms : List (GameModule α))
    (a : α) (e : Nat)
    (h1 : m.can_handle a = Except.ok true) (h2 : m.process_action a = Except.error e) :
    ModuleManager.process_action (m :: ms) a = ModuleManager.process_action ms a ∧
    ModuleManager.invoked_modules (m :: ms) a = m.mid :: ModuleManager.invoked_modules ms a ∧
    ∀ (m2 : GameModule α) (b : Bool),
      m2.can_handle a = Except.ok true → m2.process_action a = Except.ok b →
      ModuleManager.process_action [m, m2] a = Except.ok b ∧
      ModuleManager.invoked_modules [m, m2] a = [m.mid, m2.mid] := by
  refine ⟨?_, ?_, ?_⟩
  · simp [ModuleManager.process_action, ModuleManager.route_loop, h1, h2]
  · simp [ModuleManager.invoked_modules, ModuleManager.route_loop, h1, h2]
  · intro m2 b h3 h4
    cases b <;>
      simp [ModuleManager.process_action, ModuleManager.invoked_modules,
        ModuleManager.route_loop, h1, h2, h3, h4]

/-- Claim C2 (witness): a raising first module followed by a succeeding
second module at concrete inputs. -/
theorem c2_witness :
    ModuleManager.process_action [rmRaise, rmTrue] 0 = Except.ok true ∧
    ModuleManager.invoked_modules [rmRaise, rmTrue] 0 = [3, 2] :=
  (c2_process_exception_isolated rmRaise [rmTrue] 0 7 rfl rfl).2.2 rmTrue true rfl rfl

/-- Claim C10: `can_handle` is evaluated outside the router's `try`, so an
exception it raises propagates uncaught out of
`ModuleManager.process_action`, and no later module's `process` is invoked. -/
theorem c10_can_handle_exception_propagates {α : Type} (m : GameModule α)
    (ms : List (GameModule α)) (a : α) (e : Nat)
    (h : m.can_handle a = Except.error e) :
    ModuleManager.process_action (m :: ms) a = Except.error e ∧
    ModuleManager.invoked_modules (m :: ms) a = [] := by
  constructor <;>
    simp [ModuleManager.process_action, ModuleManager.invoked_modules,
      ModuleManager.route_loop, h]

/-- Claim C10 (witness): a raising `can_handle` at a concrete module list. -/
theorem c10_witness :
    ModuleManager.process_action [rmBadClaim, rmTrue] 0 = Except.error 9 ∧
    ModuleManager.invoked_modules [rmBadClaim, rmTrue] 0 = [] :=
  c10_can_handle_exception_propagates rmBadClaim [rmTrue] 0 9 rfl

lemma attack_body_false_iff (s : GameState) (attacker_id target_id : String)
    (attack_roll damage_roll : Int) (modifier_of : Character → Int) :
    (attack_body s attacker_id target_id attack_roll damage_roll modifier_of).2 = false ↔
      invalid_or_out_of_range s attacker_id target_id := by
  unfold attack_body invalid_or_out_of_range
  cases h1 : get_character_by_id s attacker_id with
  | none =>
    cases h2 : get_character_by_id s target_id <;> simp
  | some attacker =>
    cases h2 : get_character_by_id s target_id with
    | none => simp
    | some target =>
      by_cases hd : manhattan attacker.position target.position > 1
      · simp only [hd, if_pos hd]
        simp only [reduceCtorEq, false_or]
        constructor
        · intro _
          exact ⟨attacker, target, rfl, rfl, hd⟩
        · intro _
          rfl
      · simp only [if_neg hd]
        constructor
        · intro hfalse
          by_cases hhit : attack_roll + modifier_of attacker ≥ target.ac <;>
            simp [hhit] at hfalse
        · rintro (h | h | ⟨a, t, ha, ht, hdist⟩)
          · exact absurd h (by simp)
          · exact absurd h (by simp)
          · rw [Option.some.injEq] at ha ht
            subst ha; subst ht
            exact absurd hdist hd

/-- Claim C7: both attack entry points (`GameEngine.execute_attack` and
`CombatModule._execute_attack`) return false exactly when an id fails to
resolve or the Manhattan distance between attacker and target exceeds one
grid square; a resolved in-range attack returns true whether it hits or
misses. -/
theorem c7_attack_false_iff (s : GameState) (attacker_id target_id : String)
    (attack_roll damage_roll : Int) :
    ((execute_attack s attacker_id target_id attack_roll damage_roll).2 = false ↔
      invalid_or_out_of_range s attacker_id target_id) ∧
    ((combat_execute_attack s attacker_id target_id attack_roll damage_roll).2 = false ↔
      invalid_or_out_of_range s attacker_id target_id) :=
  ⟨attack_body_false_iff s attacker_id target_id attack_roll damage_roll (fun _ => 3),
   attack_body_false_iff s attacker_id target_id attack_roll damage_roll
     (fun a => a.attack_bonus)⟩

lemma move_character_eq (s : GameState) (cid : String) (p : Int × Int) (ch : Character)
    (h : get_character_by_id s cid = some ch) :
    move_character s cid p =
      if 0 ≤ p.1 ∧ p.1 < s.width ∧ 0 ≤ p.2 ∧ p.2 < s.height then
        if s.characters.any (fun other => decide (other.id ≠ cid ∧ other.position = p)) then
          (s, false)
        else
          (add_to_log (update_character s cid (fun c => { c with position := p }))
            (move_msg ch p), true)
      else
        (s, false) := by
  simp [move_character, h]

/-- Claim C4: given a character id present in the state,
`move_character` returns true iff the destination is in bounds and no other
character occupies it; on success it moves the character there, appends a
log entry, and (for a roster with unique ids and pairwise distinct
positions) keeps all positions pairwise distinct. -/
theorem c4_move_character (s : GameState) (cid : String) (p : Int × Int) (ch : Character)
    (h : get_character_by_id s cid = some ch) :
    ((move_character s cid p).2 = true ↔ in_bounds s p ∧ occupancy_ok s cid p) ∧
    ((move_character s cid p).2 = true →
      character_at (move_character s cid p).1 cid p ∧
      (move_character s cid p).1.game_log = s.game_log ++ [move_msg ch p] ∧
      (ids_nodup s.characters → positions_distinct s.characters →
        positions_distinct (move_character s cid p).1.characters)) := by
  rw [move_character_eq s cid p ch h]
  by_cases hb : (0 ≤ p.1 ∧ p.1 < s.width ∧ 0 ≤ p.2 ∧ p.2 < s.height)
  · by_cases hocc :
      s.characters.any (fun other => decide (other.id ≠ cid ∧ other.position = p)) = true
    · rw [if_pos hb, if_pos hocc]
      simp only [List.any_eq_true, decide_eq_true_eq] at hocc
      obtain ⟨o, ho, hoid, hop⟩ := hocc
      constructor
      · simp only [Bool.false_eq_true, false_iff, not_and, in_bounds, occupancy_ok]
        intro _ hok
        exact hok o ho hoid hop
      · intro hfalse
        exact absurd hfalse (by simp)
    · rw [if_pos hb, if_neg (by simpa using hocc)]
      simp only [List.any_eq_true, decide_eq_true_eq, not_exists, not_and] at hocc
      push_neg at hocc
      have hok : occupancy_ok s cid p := fun o ho hid => hocc o ho hid
      constructor
      · simp only [true_iff, in_bounds]
        exact ⟨hb, hok⟩
      · intro _
        refine ⟨?_, ?_, ?_⟩
        · intro o ho hid
          simp only [add_to_log, update_character, List.mem_map] at ho
          obtain ⟨a, _, rfl⟩ := ho
          by_cases ha : a.id = cid
          · simp [ha]
          · simp only [if_neg ha] at hid ⊢
            exact absurd hid ha
        · simp [add_to_log, update_character]
        · intro hn hd
          simp only [positions_distinct, add_to_log, update_character]
          rw [List.pairwise_map]
          have hn' : s.characters.Pairwise (fun a b => a.id ≠ b.id) := by
            rw [ids_nodup, List.Nodup, List.pairwise_map] at hn
            exact hn
          have hcomb := hd.and hn'
          refine hcomb.imp_of_mem ?_
          intro a b ha hb' hab
          obtain ⟨hpos, hid⟩ := hab
          by_cases hac : a.id = cid <;> by_cases hbc : b.id = cid
          · exact absurd (hac.trans hbc.symm) hid
          · simp only [if_pos hac, if_neg hbc]
            exact fun e => hok b hb' hbc e.symm
          · simp only [if_neg hac, if_pos hbc]
            exact fun e => (hok a ha hac) e
          · simp only [if_neg hac, if_neg hbc]
            exact hpos
  · rw [if_neg hb]
    constructor
    · simp only [Bool.false_eq_true, false_iff, not_and, in_bounds]
      intro hbnds
      exact absurd hbnds hb
    · intro hfalse
      exact absurd hfalse (by simp)

/-- Claim C4 (witness): a concrete successful move on a two-character map. -/
theorem c4_witness :
    (move_character w4 "a" (1, 1)).2 = true ∧
    character_at (move_character w4 "a" (1, 1)).1 "a" (1, 1) ∧
    (move_character w4 "a" (1, 1)).1.game_log = w4.game_log ++ [move_msg w4a (1, 1)] ∧
    positions_distinct (move_character w4 "a" (1, 1)).1.characters := by
  have h := c4_move_character w4 "a" (1, 1) w4a rfl
  have hb : (move_character w4 "a" (1, 1)).2 = true := h.1.mpr (by decide)
  have h2 := h.2 hb
  exact ⟨hb, h2.1, h2.2.1, h2.2.2 (by decide) (by decide)⟩

lemma apply_damage_eq (s : GameState) (cid : String) (d : Int) (c : Character)
    (h : get_character_by_id s cid = some c) :
    apply_damage s cid d =
      (let newHp : Int := max 0 (c.hp - d)
       let s1 := add_to_log (update_character s cid (fun x => { x with hp := newHp }))
         (damage_msg c d)
       if newHp ≤ 0 then (add_to_log s1 (defeat_msg c.name), true) else (s1, true)) := by
  simp [apply_damage, h]

/-- Claim C5 (counterexample): a character at HP 1 takes 1 damage (the
positive-to-zero crossing) and then takes 1 more damage while already at
HP 0; the defeat log line appears twice, refuting "exactly once ... not on
later damage applications to an already-zero-HP character". -/
theorem c5_counterexample :
    hp_zero_for (apply_damage cx5 "a" 1).1 "a" ∧
    (apply_damage (apply_damage cx5 "a" 1).1 "a" 1).1.game_log.count (defeat_msg "A") = 2 := by
  constructor
  · decide
  · rfl

/-- Claim C5 (amended): for an existing character and any damage `d` at
least its current HP, `apply_damage` leaves HP exactly 0 (never negative)
and appends the damage line followed by the defeat line — the defeat line is
appended on *every* damage application that leaves HP at zero, including
later applications to an already-zero-HP character. -/
theorem c5_damage_clamps (s : GameState) (cid : String) (d : Int) (c : Character)
    (h : get_character_by_id s cid = some c) (hd : c.hp ≤ d) :
    hp_zero_for (apply_damage s cid d).1 cid ∧
    (apply_damage s cid d).1.game_log = s.game_log ++ [damage_msg c d, defeat_msg c.name] := by
  have hnew : max 0 (c.hp - d) = 0 := by omega
  rw [apply_damage_eq s cid d c h]
  simp only [hnew]
  rw [if_pos (le_refl (0 : Int))]
  constructor
  · intro o ho hid
    simp only [add_to_log, update_character, List.mem_map] at ho
    obtain ⟨a, _, rfl⟩ := ho
    by_cases ha : a.id = cid
    · simp [ha]
    · simp only [if_neg ha] at hid
      exact absurd hid ha
  · simp [add_to_log, update_character]

/-- Claim C5 (witness): a concrete lethal hit (HP 7, damage 7). -/
theorem c5_witness :
    hp_zero_for (apply_damage w5 "a" 7).1 "a" ∧
    (apply_damage w5 "a" 7).1.game_log = w5.game_log ++ [damage_msg w5ch 7, defeat_msg w5ch.name] :=
  c5_damage_clamps w5 "a" 7 w5ch rfl (by decide)

lemma take_sum_nonneg (stream : List Int) (n : Nat) (h : ∀ r ∈ stream, (0 : Int) ≤ r) :
    0 ≤ (stream.take n).sum :=
  List.sum_nonneg (fun r hr => h r (List.mem_of_mem_take hr))

lemma all_hp_inv_characters {chars : List Character} (h : ∀ c ∈ chars, hp_inv c)
    {g : Character → Character} (hg : ∀ c ∈ chars, hp_inv c → hp_inv (g c)) :
    ∀ c ∈ chars.map g, hp_inv c := by
  intro c hc
  obtain ⟨a, ha, rfl⟩ := List.mem_map.1 hc
  exact hg a ha (h a ha)

lemma find?_id_eq {l : List Character} (hn : (l.map (fun c => c.id)).Nodup)
    {t : Character} {cid : String}
    (hf : l.find? (fun c => c.id == cid) = some t)
    {c : Character} (hc : c ∈ l) (hcid : c.id = cid) : c = t := by
  have ht : t ∈ l := List.mem_of_find?_eq_some hf
  have htid : t.id = cid := by simpa using List.find?_some hf
  exact List.inj_on_of_nodup_map hn hc ht (by rw [hcid, htid])

/-- Preservation of the HP invariant under an update keyed on a character id
that sets the hit points of the found character to a value within its
bounds. -/
lemma hp_inv_update_list (l : List Character) (hn : (l.map (fun c => c.id)).Nodup)
    (h : ∀ c ∈ l, hp_inv c) (t : Character) (cid : String)
    (hf : l.find? (fun c => c.id == cid) = some t)
    (newHp : Int) (h0 : 0 ≤ newHp) (hmax : newHp ≤ t.max_hp)
    (g : Character → Character)
    (hgeq : ∀ x, x.id = cid → (g x).hp = newHp ∧ (g x).max_hp = x.max_hp)
    (hgne : ∀ x, x.id ≠ cid → g x = x) :
    ∀ c ∈ l.map g, hp_inv c := by
  apply all_hp_inv_characters h
  intro x hx hxinv
  by_cases hxc : x.id = cid
  · have hxt : x = t := find?_id_eq hn hf hx hxc
    obtain ⟨h1, h2⟩ := hgeq x hxc
    unfold hp_inv
    rw [h1, h2, hxt]
    exact ⟨h0, hmax⟩
  · rw [hgne x hxc]
    exact hxinv

/-- Claim C6 (counterexample): `apply_damage` with a negative amount heals
above the maximum — a character at 20/20 hit with damage −5 ends at 25/20,
violating `0 ≤ hp ≤ max_hp`. -/
theorem c6_counterexample :
    (get_character_by_id (apply_damage cx6 "a" (-5)).1 "a").map (fun c => (c.hp, c.max_hp)) =
      some (25, 20) ∧
    ¬ all_hp_inv (apply_damage cx6 "a" (-5)).1 := by
  constructor <;> decide

/-- Claim C6 (amended): with unique character ids and the invariant
`0 ≤ hp ≤ max_hp` holding for every character, every core operation with a
*nonnegative* damage amount and nonnegative die outcomes preserves the
invariant: `apply_damage`, every branch of `_execute_spell_effect`
(cure wounds, magic missile, shield, fireball), and `_use_item` healing.
(The unrestricted claim fails: see the counterexample with negative
damage.) -/
theorem c6_hp_invariant (s : GameState) (hn : ids_nodup s.characters) (h : all_hp_inv s) :
    (∀ cid d, 0 ≤ d → all_hp_inv (apply_damage s cid d).1) ∧
    (∀ spell_key caster_id target stream, (∀ r ∈ stream, (0 : Int) ≤ r) →
      all_hp_inv (execute_spell_effect s spell_key caster_id target stream).1) ∧
    (∀ cid item_name stream, (∀ r ∈ stream, (0 : Int) ≤ r) →
      all_hp_inv (use_item s cid item_name stream).1) := by
  refine ⟨?_, ?_, ?_⟩
  · -- apply_damage with nonnegative damage
    intro cid d hd
    cases hf : get_character_by_id s cid with
    | none =>
      have he : (apply_damage s cid d).1 = s := by simp [apply_damage, hf]
      rw [he]
      exact h
    | some c =>
      have hc : hp_inv c := h c (List.mem_of_find?_eq_some hf)
      have hchars : (apply_damage s cid d).1.characters = s.characters.map
          (fun x => if x.id = cid then { x with hp := max 0 (c.hp - d) } else x) := by
        rw [apply_damage_eq s cid d c hf]
        by_cases hle : max 0 (c.hp - d) ≤ 0 <;>
          simp [hle, add_to_log, update_character]
      intro x hx
      rw [hchars] at hx
      exact hp_inv_update_list s.characters hn h c cid hf
        (max 0 (c.hp - d)) (le_max_left _ _)
        (by unfold hp_inv at hc; omega)
        (fun x => if x.id = cid then { x with hp := max 0 (c.hp - d) } else x)
        (fun y hy => by simp [if_pos hy])
        (fun y hy => by simp [if_neg hy]) x hx
  · -- _execute_spell_effect with nonnegative die outcomes
    intro spell_key caster_id target stream hstream
    have hsum : ∀ n : Nat, 0 ≤ (stream.take n).sum := fun n => take_sum_nonneg stream n hstream
    by_cases h1 : spell_key = "cure_wounds"
    · subst h1
      cases target with
      | none =>
        have he : (execute_spell_effect s "cure_wounds" caster_id none stream).1 = s := by
          simp [execute_spell_effect]
        rw [he]
        exact h
      | some tid =>
        cases hf : get_character_by_id s tid with
        | none =>
          have he : (execute_spell_effect s "cure_wounds" caster_id (some tid) stream).1 = s := by
            simp [execute_spell_effect, hf]
          rw [he]
          exact h
        | some t =>
          have ht : hp_inv t := h t (List.mem_of_find?_eq_some hf)
          have hchars :
              (execute_spell_effect s "cure_wounds" caster_id (some tid) stream).1.characters =
              s.characters.map (fun x => if x.id = tid then
                { x with hp := min t.max_hp (t.hp + ((stream.take 1).sum + 3)) } else x) := by
            simp [execute_spell_effect, hf, add_to_log, update_character]
          intro x hx
          rw [hchars] at hx
          exact hp_inv_update_list s.characters hn h t tid hf
            (min t.max_hp (t.hp + ((stream.take 1).sum + 3)))
            (by have := hsum 1; unfold hp_inv at ht; omega)
            (min_le_left _ _)
            (fun x => if x.id = tid then
              { x with hp := min t.max_hp (t.hp + ((stream.take 1).sum + 3)) } else x)
            (fun y hy => by simp [if_pos hy])
            (fun y hy => by simp [if_neg hy]) x hx
    · by_cases h2 : spell_key = "magic_missile"
      · subst h2
        cases target with
        | none =>
          have he : (execute_spell_effect s "magic_missile" caster_id none stream).1 = s := by
            simp [execute_spell_effect]
          rw [he]
          exact h
        | some tid =>
          cases hf : get_character_by_id s tid with
          | none =>
            have he :
                (execute_spell_effect s "magic_missile" caster_id (some tid) stream).1 = s := by
              simp [execute_spell_effect, hf]
            rw [he]
            exact h
          | some t =>
            have ht : hp_inv t := h t (List.mem_of_find?_eq_some hf)
            have hchars :
                (execute_spell_effect s "magic_missile" caster_id (some tid) stream).1.characters =
                s.characters.map (fun x => if x.id = tid then
                  { x with hp := max 0 (t.hp - ((stream.take 3).sum + 3)) } else x) := by
              by_cases hle : max 0 (t.hp - ((stream.take 3).sum + 3)) ≤ 0 <;>
                simp [execute_spell_effect, hf, hle, add_to_log, update_character]
            intro x hx
            rw [hchars] at hx
            exact hp_inv_update_list s.characters hn h t tid hf
              (max 0 (t.hp - ((stream.take 3).sum + 3))) (le_max_left _ _)
              (by have := hsum 3; unfold hp_inv at ht; omega)
              (fun x => if x.id = tid then
                { x with hp := max 0 (t.hp - ((stream.take 3).sum + 3)) } else x)
              (fun y hy => by simp [if_pos hy])
              (fun y hy => by simp [if_neg hy]) x hx
      · by_cases h3 : spell_key = "shield"
        · subst h3
          have hchars :
              (execute_spell_effect s "shield" caster_id target stream).1.characters =
              s.characters.map (fun c => if c.id = caster_id then
                { c with temp_ac_bonus := c.temp_ac_bonus + 5, ac := c.ac + 5 } else c) := by
            cases hg : get_character_by_id s caster_id <;>
              simp [execute_spell_effect, hg, add_to_log, update_character]
          intro x hx
          rw [hchars] at hx
          refine all_hp_inv_characters h ?_ x hx
          intro c _ hc
          by_cases hcc : c.id = caster_id
          · rw [if_pos hcc]
            unfold hp_inv at hc ⊢
            exact hc
          · rw [if_neg hcc]
            exact hc
        · by_cases h4 : spell_key = "fireball"
          · subst h4
            have hchars :
                (execute_spell_effect s "fireball" caster_id target stream).1.characters =
                s.characters.map
                  (fun c => if (c.ctype == "monster" && decide (c.hp > 0)) = true then
                    { c with hp := max 0 (c.hp - (stream.take 8).sum) } else c) := by
              by_cases hemp : ((s.characters.filter
                  (fun c => c.ctype == "monster" && decide (c.hp > 0))).map
                    (fun c => c.name)).isEmpty <;>
                simp [execute_spell_effect, hemp, add_to_log]
            intro x hx
            rw [hchars] at hx
            refine all_hp_inv_characters h ?_ x hx
            intro c _ hc
            split
            · unfold hp_inv at hc ⊢
              have := hsum 8
              refine ⟨le_max_left _ _, ?_⟩
              simp only
              omega
            · exact hc
          · have he : (execute_spell_effect s spell_key caster_id target stream).1 = s := by
              simp [execute_spell_effect, h1, h2, h3, h4]
            rw [he]
            exact h
  · -- _use_item healing
    intro cid item_name stream hstream
    have hsum : ∀ n : Nat, 0 ≤ (stream.take n).sum := fun n => take_sum_nonneg stream n hstream
    cases hf : get_character_by_id s cid with
    | none =>
      have he : (use_item s cid item_name stream).1 = s := by simp [use_item, hf]
      rw [he]
      exact h
    | some character =>
      have hch : hp_inv character := h character (List.mem_of_find?_eq_some hf)
      cases hi : character.inventory.find? (fun it => it.name.toLower == item_name.toLower) with
      | none =>
        have he : (use_item s cid item_name stream).1 = s := by simp [use_item, hf, hi]
        rw [he]
        exact h
      | some item =>
        by_cases hc : item.itype = "consumable"
        · cases hheal : item.healing with
          | none =>
            have hchars : (use_item s cid item_name stream).1.characters = s.characters.map
                (fun c => if c.id = cid then
                  { c with inventory := consume_item c.inventory item_name } else c) := by
              simp [use_item, hf, hi, hc, hheal, update_character]
            intro x hx
            rw [hchars] at hx
            refine all_hp_inv_characters h ?_ x hx
            intro c _ hcinv
            by_cases hcc : c.id = cid
            · rw [if_pos hcc]
              unfold hp_inv at hcinv ⊢
              exact hcinv
            · rw [if_neg hcc]
              exact hcinv
          | some trip =>
            obtain ⟨n, size, k⟩ := trip
            have hchars : (use_item s cid item_name stream).1.characters = s.characters.map
                (fun c => if c.id = cid then
                  { c with
                      hp := min character.max_hp (character.hp + ((stream.take n).sum + (k : Int))),
                      inventory := consume_item c.inventory item_name } else c) := by
              simp [use_item, hf, hi, hc, hheal, add_to_log, update_character]
            intro x hx
            rw [hchars] at hx
            exact hp_inv_update_list s.characters hn h character cid hf
              (min character.max_hp (character.hp + ((stream.take n).sum + (k : Int))))
              (by
                have := hsum n
                have hk : (0 : Int) ≤ (k : Int) := Int.natCast_nonneg k
                unfold hp_inv at hch
                omega)
              (min_le_left _ _)
              (fun c => if c.id = cid then
                { c with
                    hp := min character.max_hp (character.hp + ((stream.take n).sum + (k : Int))),
                    inventory := consume_item c.inventory item_name } else c)
              (fun y hy => by simp [if_pos hy])
              (fun y hy => by simp [if_neg hy]) x hx
        · have he : (use_item s cid item_name stream).1 = s := by simp [use_item, hf, hi, hc]
          rw [he]
          exact h

/-- Claim C6 (witness): the invariant after concrete damage, spell and item
operations on a two-character roster. -/
theorem c6_witness :
    all_hp_inv (apply_damage w6 "a" 3).1 ∧
    all_hp_inv (execute_spell_effect w6 "magic_missile" "a" (some "b") [2, 2, 2]).1 ∧
    all_hp_inv (use_item w6 "a" "Healing Potion" [4, 4]).1 := by
  have H := c6_hp_invariant w6 (by decide) (by decide)
  exact ⟨H.1 "a" 3 (by decide),
    H.2.1 "magic_missile" "a" (some "b") [2, 2, 2] (by decide),
    H.2.2 "a" "Healing Potion" [4, 4] (by decide)⟩

/-- Claim C8 (counterexample): a caster at HP 5/20 with one level-1 slot
casting `cure_wounds` on self with the healing d8 seeded to 6 ends at HP 14
(the code heals `roll + 3` = 9), not at the claimed HP 11. -/
theorem c8_counterexample :
    (get_character_by_id s8a "caster").map (fun c => c.hp) = some 14 ∧
    (get_character_by_id s8a "caster").map (fun c => c.hp) ≠ some 11 := by
  constructor <;> decide

/-- Claim C8 (amended): in the seeded scenario the cast succeeds, leaving the
caster at HP 14/20 (healing is die + 3 spell modifier) with the level-1
used-slot counter at 1; a second cast attempt returns false with HP and the
slot counters unchanged. -/
theorem c8_cure_wounds_scenario :
    (cast_spell s8 "caster" "cure_wounds" none [6]).2 = true ∧
    (get_character_by_id s8a "caster").map
      (fun c => (c.hp, c.max_hp, c.spell_slots 1, c.spell_slots_used 1)) = some (14, 20, 1, 1) ∧
    (cast_spell s8a "caster" "cure_wounds" none [6]).2 = false ∧
    (get_character_by_id (cast_spell s8a "caster" "cure_wounds" none [6]).1 "caster").map
      (fun c => (c.hp, c.spell_slots 1, c.spell_slots_used 1)) = some (14, 1, 1) := by
  refine ⟨?_, ?_, ?_, ?_⟩ <;> decide

/-- Claim C9 (counterexample): a `move` action with no `character_id` and no
`position` is *not* surfaced as a false result — `character_id` defaults to
`'player'` and `position` to `(0, 0)`, and with the player standing at
`(0, 1)` the move succeeds, silently acting on the defaulted character. -/
theorem c9_counterexample :
    (movement_process_action s9 mov0 a9_move).2.2 = true ∧
    character_at (movement_process_action s9 mov0 a9_move).1 "player" (0, 0) := by
  constructor <;> decide

/-- Claim C9 (amended): missing fields are filled by defensive defaults
rather than raising — an `attack` action missing `target_id` is reported as
a false result with the state unchanged, while a `move` or `dash` action
missing `character_id` is processed exactly as if `character_id` were
`'player'` (and so can succeed by acting on the defaulted character). -/
theorem c9_missing_field_defaults (s : GameState) (mov : String → Int) (a b : ActionData)
    (attack_roll damage_roll : Int) (rolls : String → Int)
    (ha : a.type = some "attack") (ht : a.target_id = none)
    (hb : b.character_id = none) :
    combat_process_action s a attack_roll damage_roll rolls = (s, false) ∧
    movement_process_action s mov b =
      movement_process_action s mov { b with character_id := some "player" } := by
  constructor
  · simp [combat_process_action, ha, combat_handle_attack, ht]
  · simp [movement_process_action, hb]

/-- Claim C9 (witness): the amended behaviour at concrete actions. -/
theorem c9_witness :
    combat_process_action s9 a9_attack 10 4 (fun _ => 1) = (s9, false) ∧
    movement_process_action s9 mov0 a9_move =
      movement_process_action s9 mov0 { a9_move with character_id := some "player" } :=
  c9_missing_field_defaults s9 mov0 a9_attack a9_move 10 4 (fun _ => 1) rfl rfl rfl

/-- Stability of `mergeSort` on a class of mutually-`le` elements: filtering
the sorted list by such a class gives the same list as filtering the input. -/
lemma filter_mergeSort_eq {α : Type} (le : α → α → Bool) (p : α → Bool) (l : List α)
    (htrans : ∀ a b c, le a b → le b c → le a c)
    (htotal : ∀ a b, le a b || le b a)
    (hp : ∀ a b, p a = true → p b = true → le a b = true) :
    (l.mergeSort le).filter p = l.filter p := by
  have h1 : (l.filter p).Pairwise (fun a b => le a b = true) := by
    refine List.pairwise_of_forall_mem_list ?_
    intro a ha b hb
    exact hp a b (List.of_mem_filter ha) (List.of_mem_filter hb)
  have h2 : List.Sublist (l.filter p) (l.mergeSort le) :=
    List.sublist_mergeSort htrans htotal h1 (List.filter_sublist l)
  have h3 : List.Sublist (l.filter p) ((l.mergeSort le).filter p) := by
    have hff := h2.filter p
    rwa [List.filter_filter,
      (by
        funext a
        simp [Bool.and_self] : (fun a => p a && p a) = p)] at hff
  have h4 : ((l.mergeSort le).filter p).length = (l.filter p).length :=
    ((List.mergeSort_perm l le).filter p).length_eq
  exact (h3.eq_of_length h4.symm).symm

lemma advance_turn_iterate (u : GameState) :
    ∀ k : Nat, u.current_turn_index + k < u.turn_order.length →
      advance_turn^[k] u = { u with current_turn_index := u.current_turn_index + k } := by
  intro k
  induction k with
  | zero =>
    intro _
    simp
  | succ n ih =>
    intro h
    rw [Function.iterate_succ_apply', ih (by omega)]
    unfold advance_turn
    rw [if_neg (by simp; omega)]
    rfl

lemma advance_turn_full_round (t : GameState) (h0 : t.current_turn_index = 0)
    (hlen : 1 ≤ t.turn_order.length) :
    (advance_turn^[t.turn_order.length] t).current_turn_index = 0 ∧
    (advance_turn^[t.turn_order.length] t).game_log = t.game_log ++ [new_round_msg] := by
  obtain ⟨m, hm⟩ : ∃ m, t.turn_order.length = m + 1 := ⟨t.turn_order.length - 1, by omega⟩
  rw [hm, Function.iterate_succ_apply', advance_turn_iterate t m (by omega)]
  unfold advance_turn
  rw [if_pos (by simp [h0]; omega)]
  simp [add_to_log]

/-- Claim C3 (counterexample): with an empty character collection,
`start_combat` builds an empty `turn_order`, so calling `advance_turn`
`len(turn_order)` = 0 times appends no new-round marker — refuting "appends
exactly one new-round log marker" in that state. -/
theorem c3_counterexample :
    (start_combat e3 (fun _ => 1)).1.turn_order = [] ∧
    (advance_turn^[(start_combat e3 (fun _ => 1)).1.turn_order.length]
      (start_combat e3 (fun _ => 1)).1).game_log =
      (start_combat e3 (fun _ => 1)).1.game_log := by
  have h1 : (start_combat e3 (fun _ => 1)).1.turn_order = [] := by
    simp [start_combat, add_to_log, e3, mkState]
  refine ⟨h1, ?_⟩
  rw [h1]
  rfl

/-- Claim C3 (amended): after `start_combat`, `turn_order` is a permutation
of exactly the character ids present at that moment, sorted by the rolled
initiatives in descending order with ties keeping insertion order, and
`current_turn_index` is 0; provided at least one character is present,
calling `advance_turn` exactly `len(turn_order)` times returns the index to
0 and appends exactly one new-round log marker (with no characters, zero
calls append none). -/
theorem c3_start_combat_turn_order (s : GameState) (rolls : String → Int)
    (h : s.characters ≠ []) :
    (start_combat s rolls).1.turn_order.Perm (s.characters.map (fun c => c.id)) ∧
    (start_combat s rolls).1.turn_order.Pairwise (fun a b =>
      initiative_of (start_combat s rolls).1.characters b ≤
        initiative_of (start_combat s rolls).1.characters a) ∧
    stable_on_ties (start_combat s rolls).1.turn_order (s.characters.map (fun c => c.id))
      (initiative_of (start_combat s rolls).1.characters) ∧
    (start_combat s rolls).1.current_turn_index = 0 ∧
    (advance_turn^[(start_combat s rolls).1.turn_order.length]
      (start_combat s rolls).1).current_turn_index = 0 ∧
    (advance_turn^[(start_combat s rolls).1.turn_order.length]
      (start_combat s rolls).1).game_log =
      (start_combat s rolls).1.game_log ++ [new_round_msg] := by
  have hids : (s.characters.map (fun c => { c with initiative := rolls c.id })).map
      (fun c => c.id) = s.characters.map (fun c => c.id) := by
    rw [List.map_map]
    rfl
  set chars := s.characters.map (fun c => { c with initiative := rolls c.id }) with hchars
  have hle_trans : ∀ a b c : String,
      decide (initiative_of chars b ≤ initiative_of chars a) = true →
      decide (initiative_of chars c ≤ initiative_of chars b) = true →
      decide (initiative_of chars c ≤ initiative_of chars a) = true := by
    intro a b c hab hbc
    simp only [decide_eq_true_eq] at *
    omega
  have hle_total : ∀ a b : String,
      (decide (initiative_of chars b ≤ initiative_of chars a) ||
        decide (initiative_of chars a ≤ initiative_of chars b)) = true := by
    intro a b
    simp only [Bool.or_eq_true, decide_eq_true_eq]
    exact Int.le_total _ _
  have hto : (start_combat s rolls).1.turn_order =
      (chars.map (fun c => c.id)).mergeSort
        (fun a b => decide (initiative_of chars b ≤ initiative_of chars a)) := rfl
  have hch : (start_combat s rolls).1.characters = chars := rfl
  refine ⟨?_, ?_, ?_, rfl, ?_, ?_⟩
  · rw [hto, hids]
    exact List.mergeSort_perm _ _
  · rw [hto, hch]
    have hsorted := List.sorted_mergeSort hle_trans hle_total (chars.map (fun c => c.id))
    exact hsorted.imp (fun hab => by simpa using hab)
  · rw [hto, hch]
    intro v
    rw [← hids]
    refine filter_mergeSort_eq _ _ _ hle_trans hle_total ?_
    intro a b hpa hpb
    simp only [beq_iff_eq] at hpa hpb
    simp [hpa, hpb]
  · exact (advance_turn_full_round (start_combat s rolls).1 rfl (by
      rw [hto]
      simp only [List.length_mergeSort, List.length_map]
      rw [hchars]
      simp only [List.length_map]
      exact List.length_pos.mpr h)).1
  · exact (advance_turn_full_round (start_combat s rolls).1 rfl (by
      rw [hto]
      simp only [List.length_mergeSort, List.length_map]
      rw [hchars]
      simp only [List.length_map]
      exact List.length_pos.mpr h)).2

/-- Claim C3 (witness): the amended statement at a concrete two-character
roster with seeded initiative rolls. -/
theorem c3_witness :
    (start_combat w3 w3rolls).1.turn_order.Perm (w3.characters.map (fun c => c.id)) ∧
    (start_combat w3 w3rolls).1.turn_order.Pairwise (fun a b =>
      initiative_of (start_combat w3 w3rolls).1.characters b ≤
        initiative_of (start_combat w3 w3rolls).1.characters a) ∧
    stable_on_ties (start_combat w3 w3rolls).1.turn_order (w3.characters.map (fun c => c.id))
      (initiative_of (start_combat w3 w3rolls).1.characters) ∧
    (start_combat w3 w3rolls).1.current_turn_index = 0 ∧
    (advance_turn^[(start_combat w3 w3rolls).1.turn_order.length]
      (start_combat w3 w3rolls).1).current_turn_index = 0 ∧
    (advance_turn^[(start_combat w3 w3rolls).1.turn_order.length]
      (start_combat w3 w3rolls).1).game_log =
      (start_combat w3 w3rolls).1.game_log ++ [new_round_msg] :=
  c3_start_combat_turn_order w3 w3rolls (List.cons_ne_nil _ _)

end DnD
